import Mathlib

/-!
Verification of the mount-lifecycle orchestration in pkg/mosconfig
(storage.go, files.go): the AtomfsStorage backend's writable-mount
rollback, cleanup actions, target setup/teardown, and mount-table hash
extraction.

Shallow embedding conventions:
* Filesystem and mount-table side effects are modelled by an explicit
  state FsState: the set of scratch directories that exist and a stack
  of active mounts (most recent first, so stacked mounts at one path
  are represented faithfully).
* Fallible OS calls and external collaborators (os.MkdirTemp, EnsureDir,
  atomfs.BuildMoleculeFromOCI, Molecule.Mount, unix.Mount, atomfs.Umount,
  IsMountpoint) succeed or fail atomically; which call fails is chosen by
  an injection record Inject, mirroring the spec's failure-injection
  tests.  A failing call has no effect on the state.
* os.MkdirTemp picks a unique fresh name; the embedding takes the chosen
  name as an argument and theorems carry the freshness hypotheses that
  MkdirTemp guarantees.
* Go errors are an inductive GoError; fmt.Errorf("...: %w", err) is
  GoError.wrapped msg err.  A Go (func(), error) return is modelled with
  the cleanup closure as an explicit list of reversal actions (Cleanup),
  and a possibly-nil closure as Option Cleanup.
-/

/-- Go errors produced in storage.go; wrapped carries the fmt.Errorf
context message around an inner error, mirroring the %w verb. -/
inductive GoError where
  | mkdirTempErr : GoError
  | ensureDirErr : String → GoError
  | buildMoleculeErr : GoError
  | molMountErr : GoError
  | overlayMountErr : GoError
  | umountErr : GoError
  | mountpointStatErr : GoError
  | atoiErr : String → GoError
  | serviceTypeErr : String → GoError
  | notOverlayErr : String → GoError
  | noLowerDirsErr : GoError
  | parseMountsErr : GoError
  | wrapped : String → GoError → GoError
deriving DecidableEq, Repr

/-- Kind of an active mount: an atomfs molecule mount (made by
stacker/atomfs) or a raw overlay mount (made by unix.Mount). -/
inductive MountKind where
  | atomfs : MountKind
  | overlay : MountKind
deriving DecidableEq, Repr

/-- One active mount: its target path and kind. -/
structure MountRec where
  path : String
  kind : MountKind
deriving DecidableEq, Repr

/-- The modelled OS state: directories existing under the scratch root
(and mountpoints), plus the stack of active mounts, most recent first.
The kernel mount table is the source of truth, per the spec. -/
structure FsState where
  dirs : List String
  mounts : List MountRec
deriving DecidableEq, Repr

/-- EnsureDir / os.MkdirAll: create the directory if it is missing. -/
def addDir (s : FsState) (d : String) : FsState :=
  { s with dirs := if d ∈ s.dirs then s.dirs else d :: s.dirs }

/-- os.MkdirTemp with the fresh unique name already chosen: the new
directory is created (freshness is a theorem hypothesis). -/
def mkdirTemp (s : FsState) (d : String) : FsState :=
  { s with dirs := d :: s.dirs }

/-- os.Remove / os.RemoveAll on a scratch directory: the first (only)
occurrence disappears; removing a missing directory is a no-op, since
every call site discards the returned error. -/
def removeDir (s : FsState) (d : String) : FsState :=
  { s with dirs := s.dirs.erase d }

/-- Establish a mount of the given kind at a path (pushes onto the
stack: mounting over an existing mount stacks, it does not replace). -/
def pushMount (s : FsState) (p : String) (k : MountKind) : FsState :=
  { s with mounts := ⟨p, k⟩ :: s.mounts }

/-- Remove the most recent mount at a path, if any. -/
def popAt (p : String) : List MountRec → List MountRec
  | [] => []
  | m :: rest => if m.path = p then rest else m :: popAt p rest

/-- Unmount at a path: removes the most recent mount there; a missing
mount makes the unmount a no-op (call sites that care about the error
are modelled separately via injection). -/
def popMount (s : FsState) (p : String) : FsState :=
  { s with mounts := popAt p s.mounts }

/-- Number of stacked mounts currently at a path. -/
def mountCount (s : FsState) (p : String) : Nat :=
  (s.mounts.filter (fun m => m.path = p)).length

/-- IsMountpoint: some mount is active at the path. -/
def isMounted (s : FsState) (p : String) : Bool :=
  s.mounts.any (fun m => m.path = p)

/-- One reversal step of a cleanup closure, as written in storage.go:
unix.Unmount, atomfs.Umount, os.RemoveAll, os.Remove.  Every cleanup
call site ignores (at most logs) the step's error. -/
inductive CleanupAct where
  | unmountOverlay : String → CleanupAct
  | umountAtomfs : String → CleanupAct
  | removeAll : String → CleanupAct
  | remove : String → CleanupAct
deriving DecidableEq, Repr

/-- A cleanup closure is the list of its reversal steps in order. -/
abbrev Cleanup := List CleanupAct

/-- Effect of one cleanup step on the state; total, because cleanup
steps never propagate errors (unmount failures are logged only). -/
def runAct : CleanupAct → FsState → FsState
  | .unmountOverlay p, s => popMount s p
  | .umountAtomfs p, s => popMount s p
  | .removeAll p, s => removeDir s p
  | .remove p, s => removeDir s p

/-- Run a cleanup closure: its steps in order. -/
def runCleanup (c : Cleanup) (s : FsState) : FsState :=
  c.foldl (fun st act => runAct act st) s

/-- Which fallible call fails in this run (the spec's failure
injection).  A true flag makes every call of that kind fail. -/
structure Inject where
  mkRoFail : Bool
  ensureFail : Bool
  buildFail : Bool
  molMountFail : Bool
  mkWorkFail : Bool
  mkUpperFail : Bool
  overlayFail : Bool
  umountFail : Bool
  checkMountFail : Bool
deriving DecidableEq, Repr

/-- Model of filepath.Join for the clean, non-empty components used in
storage.go (no trailing slashes, no dot segments). -/
def joinPath (x y : String) : String := x ++ "/" ++ y

/-- MountSpec from files.go. -/
structure MountSpec where
  Source : String
  Dest : String
  Options : String
deriving DecidableEq, Repr

/-- Target from files.go: immutable descriptor of one installable
image layer. -/
structure Target where
  SourceLayer : String
  Name : String
  Fullname : String
  Version : String
  ServiceType : String
  Network : String
  NSGroup : String
  Mounts : List MountSpec
  ManifestHash : String
deriving DecidableEq, Repr

/-- AtomfsStorage from storage.go: the backend's three fixed paths. -/
structure AtomfsStorage where
  RootDir : String
  zotPath : String
  scratchPath : String
deriving DecidableEq, Repr

/-- AtomfsStorage.Mount (storage.go): EnsureDir the mountpoint, build
the molecule from the OCI layout (external collaborator, no state
effect until mounted), then mount it.  Returns the cleanup closure
(which calls atomfs.Umount, ignoring its error) and the error.  The
MountOCIOpts construction and the AllowMissingVerityData flag only
parameterize the external BuildMoleculeFromOCI call, which the
injection models. -/
def mountA (inj : Inject) (a : AtomfsStorage) (t : Target)
    (mountpoint : String) (s : FsState) :
    (Cleanup × Option GoError) × FsState :=
  if inj.ensureFail then
    (([], some (.wrapped "Failed creating mountpoint" (.ensureDirErr mountpoint))), s)
  else
    let s1 := addDir s mountpoint
    if inj.buildFail then
      (([], some (.wrapped "Failed building atomfs molecule" .buildMoleculeErr)), s1)
    else
      if inj.molMountFail then
        (([CleanupAct.umountAtomfs mountpoint],
          some (.wrapped "Failed mounting molecule" .molMountErr)), s1)
      else
        (([CleanupAct.umountAtomfs mountpoint], none),
          pushMount s1 mountpoint .atomfs)

/-- AtomfsStorage.MountWriteable (storage.go): create the readonly
scratch dir, mount the target read-only there, create workdir and
upperdir, then overlay-mount at the mountpoint, unwinding created
resources on each failure exactly as the source does.  ro, work, upper
are the fresh names MkdirTemp chooses.  On the overlay-mount failure
the source returns nil (modelled none) with the raw unix.Mount error;
the following wrapped-error return statement is unreachable. -/
def mountWriteable (inj : Inject) (ro work upper : String)
    (a : AtomfsStorage) (t : Target) (mountpoint : String) (s : FsState) :
    (Option Cleanup × Option GoError) × FsState :=
  if inj.mkRoFail then
    ((some [], some (.wrapped "Failed creating readonly mountpoint" .mkdirTempErr)), s)
  else
    let s1 := mkdirTemp s ro
    match mountA inj a t ro s1 with
    | ((_, some e), s2) =>
        ((some [], some (.wrapped "Failed creating readonly mount" e)),
          removeDir s2 ro)
    | ((roCleanup, none), s2) =>
      if inj.mkWorkFail then
        ((some [], some (.wrapped "Failed creating workdir" .mkdirTempErr)),
          removeDir (runCleanup roCleanup s2) ro)
      else
        let s3 := mkdirTemp s2 work
        if inj.mkUpperFail then
          ((some [], some (.wrapped "Failed creating upperdir" .mkdirTempErr)),
            removeDir (removeDir (runCleanup roCleanup s3) ro) work)
        else
          let s4 := mkdirTemp s3 upper
          if inj.overlayFail then
            ((none, some .overlayMountErr),
              removeDir (removeDir (removeDir (runCleanup roCleanup s4) work) upper) ro)
          else
            ((some (CleanupAct.unmountOverlay mountpoint :: roCleanup ++
                [CleanupAct.removeAll work, CleanupAct.removeAll upper,
                 CleanupAct.remove ro]), none),
              pushMount s4 mountpoint .overlay)

/-- TargetMountdir path (storage.go): scratchPath/roots/name. -/
def targetMountdir (a : AtomfsStorage) (name : String) : String :=
  joinPath (joinPath a.scratchPath "roots") name

/-- Continuation of SetupTarget after the initial unmount-if-mounted
check (storage.go lines 230-249): EnsureDir the mountdir, then
MountWriteable for container service types, Mount otherwise, wrapping
any mount error; the returned cleanup closures are discarded. -/
def setupTargetMountPhase (inj : Inject) (ro work upper : String)
    (a : AtomfsStorage) (t : Target) (mp : String) (s' : FsState) :
    Option GoError × FsState :=
  if inj.ensureFail then
    (some (.wrapped "Failed creating mountpoint" (.ensureDirErr mp)), s')
  else
    let s'' := addDir s' mp
    if t.ServiceType = "container" then
      match mountWriteable inj ro work upper a t mp s'' with
      | ((_, some e), sE) => (some (.wrapped "Failed mounting" e), sE)
      | ((_, none), sOk) => (none, sOk)
    else
      match mountA inj a t mp s'' with
      | ((_, some e), sE) => (some (.wrapped "Failed mounting" e), sE)
      | ((_, none), sOk) => (none, sOk)

/-- AtomfsStorage.SetupTarget (storage.go): if the mountdir is already
mounted, atomfs.Umount it first (failure returned raw); then EnsureDir
and mount via setupTargetMountPhase. -/
def setupTarget (inj : Inject) (ro work upper : String)
    (a : AtomfsStorage) (t : Target) (s : FsState) :
    Option GoError × FsState :=
  let mp := targetMountdir a t.Name
  if inj.checkMountFail then
    (some (.wrapped "Failed checking whether mounted" .mountpointStatErr), s)
  else
    if isMounted s mp then
      if inj.umountFail then (some .umountErr, s)
      else setupTargetMountPhase inj ro work upper a t mp (popMount s mp)
    else
      setupTargetMountPhase inj ro work upper a t mp s

/-- AtomfsStorage.TearDownTarget (storage.go): compute the mountdir;
if not mounted, succeed as a no-op; otherwise atomfs.Umount, wrapping
and returning any unmount failure. -/
def tearDownTarget (inj : Inject) (a : AtomfsStorage) (name : String)
    (s : FsState) : Option GoError × FsState :=
  let mp := targetMountdir a name
  if inj.checkMountFail then
    (some (.wrapped "Failed checking whether mounted" .mountpointStatErr), s)
  else
    if isMounted s mp then
      if inj.umountFail then
        (some (.wrapped "atomfs umount failed" .umountErr), s)
      else (none, popMount s mp)
    else (none, s)

/-!
Mount-table hash extraction (storage.go getHashFromOverlay and
MountedByHash).  The mount-table parser and the overlay option
extraction live in the external stacker/pkg/mount collaborator, which
the spec fixes at its interface boundary; a parsed mount-table line is
a Mount record, and getHashFromOverlay receives the result of
mount.ParseMounts on a mountinfo snapshot.
-/

/-- Result of a Go function returning (string, error), with an extra
case for a runtime panic (out-of-range slice indexing). -/
inductive GoRes (α : Type) where
  | ok : α → GoRes α
  | err : GoError → GoRes α
  | panic : GoRes α
deriving DecidableEq, Repr

/-- One parsed mount-table entry at the stacker/pkg/mount interface:
the mount target path, filesystem type, and comma-split option list. -/
structure Mount where
  target : String
  fstype : String
  opts : List String
deriving DecidableEq, Repr

/-- Go strings.Split with a one-character separator, on char lists:
always returns at least one (possibly empty) piece. -/
def splitChars (sep : Char) : List Char → List (List Char)
  | [] => [[]]
  | c :: rest =>
    if c = sep then [] :: splitChars sep rest
    else
      match splitChars sep rest with
      | [] => [[c]]
      | h :: t => (c :: h) :: t

/-- Go strings.Split with a one-character separator, on strings. -/
def goSplit (sep : Char) (s : String) : List String :=
  (splitChars sep s.data).map String.mk

/-- Drop an expected leading segment from a char list, or fail:
the char-level form of strings.TrimPrefix guarded by HasPrefix. -/
def dropPref : List Char → List Char → Option (List Char)
  | [], l => some l
  | _ :: _, [] => none
  | p :: ps, c :: cs => if c = p then dropPref ps cs else none

/-- The option-name segment the overlay lower-directory list follows. -/
def lowerdirKey : List Char := "lowerdir=".data

/-- Value of the lowerdir= option if this option string carries it. -/
def lowerdirValue (opt : String) : Option String :=
  (dropPref lowerdirKey opt.data).map String.mk

/-- First lowerdir= option value in an option list, if any. -/
def findLowerdir : List String → Option String
  | [] => none
  | opt :: rest =>
    match lowerdirValue opt with
    | some v => some v
    | none => findLowerdir rest

/-- Modelled from the spec: stacker/pkg/mount Mount.GetOverlayDirs is
an external collaborator not under src/.  Per the spec's external
interface section, the mount-table entry carries overlay options with
a lowerdir= list, possibly colon-separated for multiple lowers, and
the parser must tolerate multiple colon-separated lower directories;
a non-overlay entry or an entry without a lowerdir list yields an
error.  The colon split follows Go strings.Split, which never returns
an empty slice. -/
def getOverlayDirs (m : Mount) : Except GoError (List String) :=
  if m.fstype ≠ "overlay" then .error (.notOverlayErr m.target)
  else
    match findLowerdir m.opts with
    | none => .error .noLowerDirsErr
    | some v => .ok (goSplit ':' v)

/-- Go path/filepath.Base on slash-separated paths: empty input gives
".", an all-slash path gives "/", otherwise the last component after
stripping trailing slashes. -/
def goBase (p : String) : String :=
  if p = "" then "."
  else
    match (p.data.reverse.dropWhile (fun c => c = '/')) with
    | [] => "/"
    | stripped => String.mk (stripped.takeWhile (fun c => c ≠ '/')).reverse

/-- Loop body of getHashFromOverlay (storage.go lines 161-178): find
the entry whose target is the queried mountpoint, get its overlay
dirs (error wrapped), index the first dir — Go panics if the slice is
empty — and return its base name; no match falls through to ("", nil). -/
def hashLoop (mountPoint : String) : List Mount → GoRes String
  | [] => .ok ""
  | m :: rest =>
    if m.target ≠ mountPoint then hashLoop mountPoint rest
    else
      match getOverlayDirs m with
      | .error e => .err (.wrapped "Failed getting overlay dirs" e)
      | .ok dirs =>
        match dirs with
        | [] => .panic
        | firstDir :: _ => .ok (goBase firstDir)

/-- getHashFromOverlay (storage.go): propagate a ParseMounts error,
otherwise scan the parsed entries. -/
def getHashFromOverlay (parsed : Except GoError (List Mount))
    (mountPoint : String) : GoRes String :=
  match parsed with
  | .error e => .err e
  | .ok mounts => hashLoop mountPoint mounts

/-- Go unicode white space for the ASCII range trimmed by
strings.TrimSpace: space, tab, newline, vertical tab, form feed,
carriage return. -/
def goSpace (c : Char) : Bool :=
  c = ' ' || c = '\t' || c = '\n' || c = '\x0b' || c = '\x0c' || c = '\r'

/-- Go strings.TrimSpace restricted to ASCII white space. -/
def goTrimSpace (s : String) : String :=
  String.mk (((s.data.dropWhile goSpace).reverse.dropWhile goSpace).reverse)

/-- Digits of a decimal numeral, or none if empty or non-digit. -/
def decDigits : List Char → Option Nat
  | [] => none
  | l => if l.all Char.isDigit then some (l.foldl (fun n c => 10 * n + (c.toNat - '0'.toNat)) 0) else none

/-- Go strconv.Atoi: optional sign then at least one decimal digit
(64-bit range overflow not modelled; the claims do not reach it). -/
def goAtoi (s : String) : Option Int :=
  match s.data with
  | [] => none
  | '+' :: rest => (decDigits rest).map Int.ofNat
  | '-' :: rest => (decDigits rest).map (fun n => -(n : Int))
  | l => (decDigits l).map Int.ofNat

/-- The external probe results MountedByHash consumes: output and exit
code of the lxc-info status (-s) and pid (-p) queries, and the parsed
mountinfo snapshots of /proc/self and /proc/(pid). -/
structure ProbeWorld where
  statusOut : String
  statusRc : Nat
  pidOut : String
  pidRc : Nat
  selfMountinfo : Except GoError (List Mount)
  procMountinfo : Int → Except GoError (List Mount)

/-- AtomfsStorage.MountedByHash (storage.go): dispatch on the target's
ServiceType; hostfs and fs-only consult the caller's own mount table;
container probes the runtime status (non-zero exit or any output other
than trimmed RUNNING gives ("", nil)), then the pid (non-zero exit
gives ("", nil); unparseable pid is an error), then that pid's
mountinfo at "/"; any other service type is an error. -/
def mountedByHash (w : ProbeWorld) (a : AtomfsStorage) (t : Target) :
    GoRes String :=
  if t.ServiceType = "hostfs" then
    getHashFromOverlay w.selfMountinfo a.RootDir
  else if t.ServiceType = "fs-only" then
    getHashFromOverlay w.selfMountinfo (joinPath a.RootDir (joinPath "mnt/atom" t.Name))
  else if t.ServiceType = "container" then
    if w.statusRc ≠ 0 then .ok ""
    else if goTrimSpace w.statusOut ≠ "RUNNING" then .ok ""
    else if w.pidRc ≠ 0 then .ok ""
    else
      match goAtoi (goTrimSpace w.pidOut) with
      | none => .err (.wrapped "couldnt get pid" (.atoiErr (goTrimSpace w.pidOut)))
      | some pid => getHashFromOverlay (w.procMountinfo pid) "/"
  else .err (.serviceTypeErr t.ServiceType)

/-- Join strings with the colon separator of overlay lowerdir lists,
the inverse direction of the colon split the parser performs. -/
def colonJoin : List String → String
  | [] => ""
  | [x] => x
  | x :: y :: ys => x ++ ":" ++ colonJoin (y :: ys)

/-- Concrete backend used by witnesses. -/
def sampleStorage : AtomfsStorage :=
  { RootDir := "/atomix", zotPath := "/zot", scratchPath := "/scratch" }

/-- Concrete container-service target used by witnesses. -/
def sampleContainer : Target :=
  { SourceLayer := "docker:base", Name := "svc1", Fullname := "repo/svc1",
    Version := "v1", ServiceType := "container", Network := "",
    NSGroup := "", Mounts := [], ManifestHash := "mh" }

/-- Concrete fs-only target used by witnesses. -/
def sampleFsOnly : Target :=
  { sampleContainer with Name := "svc2", ServiceType := "fs-only" }

/-- Initial state used by witnesses: one unrelated directory and one
unrelated mount, nothing at any path the operations touch. -/
def sampleFs : FsState :=
  { dirs := ["/etc"], mounts := [⟨"/boot", .atomfs⟩] }

/-- Injection with every call succeeding. -/
def injNone : Inject :=
  { mkRoFail := false, ensureFail := false, buildFail := false,
    molMountFail := false, mkWorkFail := false, mkUpperFail := false,
    overlayFail := false, umountFail := false, checkMountFail := false }

/-- Injection failing only the overlay mount syscall. -/
def injOverlay : Inject := { injNone with overlayFail := true }

/-- Injection failing only the workdir creation. -/
def injWork : Inject := { injNone with mkWorkFail := true }

/-- Injection failing only atomfs.Umount. -/
def injUmount : Inject := { injNone with umountFail := true }

/-! Helper lemmas about the char-level split and trim primitives. -/

theorem splitChars_ne_nil (sep : Char) (l : List Char) : splitChars sep l ≠ [] := by
  cases l with
  | nil => simp [splitChars]
  | cons c rest =>
    simp only [splitChars]
    split
    · simp
    · split <;> simp

theorem splitChars_of_not_mem (sep : Char) (l : List Char) (h : sep ∉ l) :
    splitChars sep l = [l] := by
  induction l with
  | nil => rfl
  | cons c rest ih =>
    have hc : ¬ c = sep := fun e => h (e ▸ List.mem_cons_self c rest)
    have hr : sep ∉ rest := fun m => h (List.mem_cons_of_mem c m)
    simp only [splitChars, if_neg hc, ih hr]

theorem splitChars_append (sep : Char) (l₁ l₂ : List Char) (h : sep ∉ l₁) :
    splitChars sep (l₁ ++ sep :: l₂) = l₁ :: splitChars sep l₂ := by
  induction l₁ with
  | nil => simp [splitChars]
  | cons c rest ih =>
    have hc : ¬ c = sep := fun e => h (e ▸ List.mem_cons_self c rest)
    have hr : sep ∉ rest := fun m => h (List.mem_cons_of_mem c m)
    simp only [List.cons_append, splitChars, if_neg hc, List.append_eq, ih hr]

theorem dropPref_append (p l : List Char) : dropPref p (p ++ l) = some l := by
  induction p with
  | nil => rfl
  | cons c cs ih => simp [dropPref, ih]

theorem lowerdirValue_append (v : String) :
    lowerdirValue ("lowerdir=" ++ v) = some v := by
  show (dropPref lowerdirKey ("lowerdir=" ++ v).data).map String.mk = some v
  rw [String.data_append]
  rw [show "lowerdir=".data = lowerdirKey from rfl]
  rw [dropPref_append]
  rfl

theorem goSplit_colonJoin_head (x : String) (more : List String)
    (hx : ':' ∉ x.data) :
    ∃ t, goSplit ':' (colonJoin (x :: more)) = x :: t := by
  cases more with
  | nil =>
    refine ⟨[], ?_⟩
    simp only [colonJoin, goSplit, splitChars_of_not_mem ':' x.data hx, List.map]
  | cons y ys =>
    refine ⟨(splitChars ':' (colonJoin (y :: ys)).data).map String.mk, ?_⟩
    have hdata : (x ++ ":" ++ colonJoin (y :: ys)).data
        = x.data ++ ':' :: (colonJoin (y :: ys)).data := by
      rw [String.data_append, String.data_append, List.append_assoc]
      rfl
    simp only [colonJoin, goSplit, hdata, splitChars_append ':' x.data _ hx, List.map]

theorem getOverlayDirs_ok_ne_nil (m : Mount) (dirs : List String)
    (h : getOverlayDirs m = .ok dirs) : dirs ≠ [] := by
  revert h
  simp only [getOverlayDirs]
  split
  · exact fun h => Except.noConfusion h
  · cases hF : findLowerdir m.opts with
    | none => exact fun h => Except.noConfusion h
    | some v =>
      intro h
      have hv : goSplit ':' v = dirs := by injection h
      intro hnil
      rw [hnil] at hv
      have : splitChars ':' v.data = [] := by
        simpa [goSplit, List.map_eq_nil_iff] using hv
      exact splitChars_ne_nil ':' v.data this

/-- C7: for every mount-table snapshot in which no entry's mount
target equals the queried path, the hash lookup returns an empty
string and no error — absence of a matching mount is a successful
empty result, never an error. -/
theorem getHashFromOverlay_no_match (mounts : List Mount) (mountPoint : String)
    (h : ∀ m ∈ mounts, m.target ≠ mountPoint) :
    getHashFromOverlay (.ok mounts) mountPoint = .ok "" := by
  simp only [getHashFromOverlay]
  induction mounts with
  | nil => rfl
  | cons m rest ih =>
    have hm : m.target ≠ mountPoint := h m (List.mem_cons_self m rest)
    simp only [hashLoop, if_pos hm]
    exact ih (fun x hx => h x (List.mem_cons_of_mem m hx))

/-- Witness for C7 at a concrete snapshot with one non-matching entry. -/
theorem getHashFromOverlay_no_match_witness :
    getHashFromOverlay
      (.ok [{ target := "/elsewhere", fstype := "overlay", opts := [] }]) "/mnt/x"
      = .ok "" :=
  getHashFromOverlay_no_match
    [{ target := "/elsewhere", fstype := "overlay", opts := [] }] "/mnt/x"
    (by decide)

/-- C6: hash extraction finds the entry whose mount target equals the
queried path, takes the first overlay lower directory and returns its
final path component; for an entry with lowerdir starting
/cache/abc123 it returns abc123 regardless of how many additional
colon-separated lower directories follow. -/
theorem getHashFromOverlay_first_lower (pre post : List Mount) (more : List String)
    (hpre : ∀ m ∈ pre, m.target ≠ "/mnt/x") :
    getHashFromOverlay
      (.ok (pre ++ ({ target := "/mnt/x", fstype := "overlay",
                      opts := ["lowerdir=" ++ colonJoin ("/cache/abc123" :: more),
                               "upperdir=/up", "workdir=/wk"] } : Mount) :: post))
      "/mnt/x" = .ok "abc123" := by
  simp only [getHashFromOverlay]
  induction pre with
  | nil =>
    simp only [List.nil_append, hashLoop]
    rw [if_neg (fun hh => hh rfl)]
    simp only [getOverlayDirs]
    rw [if_neg (fun hh => hh rfl)]
    simp only [findLowerdir, lowerdirValue_append]
    obtain ⟨t, ht⟩ := goSplit_colonJoin_head "/cache/abc123" more (by decide)
    rw [ht]
    rfl
  | cons m pre' ih =>
    have hm : m.target ≠ "/mnt/x" := hpre m (List.mem_cons_self m pre')
    simp only [List.cons_append, hashLoop, if_pos hm]
    exact ih (fun x hx => hpre x (List.mem_cons_of_mem m hx))

/-- Witness for C6: one preceding non-matching entry, the spec's
synthetic entry with lowers /cache/abc123 and /cache/def456. -/
theorem getHashFromOverlay_first_lower_witness :
    getHashFromOverlay
      (.ok ([{ target := "/other", fstype := "ext4", opts := [] }] ++
        ({ target := "/mnt/x", fstype := "overlay",
           opts := ["lowerdir=" ++ colonJoin ["/cache/abc123", "/cache/def456"],
                    "upperdir=/up", "workdir=/wk"] } : Mount) :: []))
      "/mnt/x" = .ok "abc123" :=
  getHashFromOverlay_first_lower
    [{ target := "/other", fstype := "ext4", opts := [] }] [] ["/cache/def456"]
    (by decide)

/-- C9: for every parsed mount-table snapshot and queried path,
getHashFromOverlay performs only in-bounds indexing: it returns a
value or an error, never the panic outcome of an out-of-range index
into the matching entry's overlay-directory list. -/
theorem getHashFromOverlay_no_panic (parsed : Except GoError (List Mount))
    (mountPoint : String) :
    getHashFromOverlay parsed mountPoint ≠ .panic := by
  cases parsed with
  | error e => simp [getHashFromOverlay]
  | ok mounts =>
    simp only [getHashFromOverlay]
    induction mounts with
    | nil => simp [hashLoop]
    | cons m rest ih =>
      simp only [hashLoop]
      split
      · exact ih
      · cases hG : getOverlayDirs m with
        | error e => simp
        | ok dirs =>
          cases hd : dirs with
          | nil => exact absurd hd (getOverlayDirs_ok_ne_nil m dirs hG)
          | cons d ds => simp

/-- C8: for a container-service target, a status probe that exits
non-zero or whose trimmed output is anything other than the exact
string RUNNING makes MountedByHash return an empty hash and no
error. -/
theorem mountedByHash_not_running (w : ProbeWorld) (a : AtomfsStorage) (t : Target)
    (hct : t.ServiceType = "container")
    (h : w.statusRc ≠ 0 ∨ goTrimSpace w.statusOut ≠ "RUNNING") :
    mountedByHash w a t = .ok "" := by
  by_cases h0 : w.statusRc = 0
  · have hr : goTrimSpace w.statusOut ≠ "RUNNING" := by
      cases h with
      | inl hl => exact absurd h0 hl
      | inr hr => exact hr
    simp [mountedByHash, hct, h0, hr]
  · simp [mountedByHash, hct, h0]

/-- Witness for C8: a stopped container probe yields ("", nil). -/
theorem mountedByHash_not_running_witness :
    mountedByHash
      { statusOut := "STOPPED", statusRc := 0, pidOut := "", pidRc := 0,
        selfMountinfo := .ok [], procMountinfo := fun _ => .ok [] }
      sampleStorage sampleContainer = .ok "" :=
  mountedByHash_not_running
    { statusOut := "STOPPED", statusRc := 0, pidOut := "", pidRc := 0,
      selfMountinfo := .ok [], procMountinfo := fun _ => .ok [] }
    sampleStorage sampleContainer rfl (Or.inr (by decide))

/-- C10: for a running container, a pid query that exits non-zero
makes MountedByHash return an empty hash and no error; only a pid that
is printed (exit 0) but not parseable as a decimal number is an
error. -/
theorem mountedByHash_pid_query (w : ProbeWorld) (a : AtomfsStorage) (t : Target)
    (hct : t.ServiceType = "container")
    (hrc : w.statusRc = 0)
    (hrun : goTrimSpace w.statusOut = "RUNNING") :
    (w.pidRc ≠ 0 → mountedByHash w a t = .ok "") ∧
    (w.pidRc = 0 → goAtoi (goTrimSpace w.pidOut) = none →
      mountedByHash w a t =
        .err (.wrapped "couldnt get pid" (.atoiErr (goTrimSpace w.pidOut)))) := by
  constructor
  · intro hp
    simp [mountedByHash, hct, hrc, hrun, hp]
  · intro hp hatoi
    simp [mountedByHash, hct, hrc, hrun, hp, hatoi]

/-- Witness for C10: a pid probe exiting non-zero yields ("", nil); a
pid probe printing non-numeric output with exit 0 yields an error. -/
theorem mountedByHash_pid_query_witness :
    mountedByHash
      { statusOut := "RUNNING\n", statusRc := 0, pidOut := "", pidRc := 1,
        selfMountinfo := .ok [], procMountinfo := fun _ => .ok [] }
      sampleStorage sampleContainer = .ok "" ∧
    mountedByHash
      { statusOut := "RUNNING\n", statusRc := 0, pidOut := " abc\n", pidRc := 0,
        selfMountinfo := .ok [], procMountinfo := fun _ => .ok [] }
      sampleStorage sampleContainer
      = .err (.wrapped "couldnt get pid" (.atoiErr "abc")) :=
  ⟨(mountedByHash_pid_query
      { statusOut := "RUNNING\n", statusRc := 0, pidOut := "", pidRc := 1,
        selfMountinfo := .ok [], procMountinfo := fun _ => .ok [] }
      sampleStorage sampleContainer rfl rfl (by decide)).1 (by decide),
   (mountedByHash_pid_query
      { statusOut := "RUNNING\n", statusRc := 0, pidOut := " abc\n", pidRc := 0,
        selfMountinfo := .ok [], procMountinfo := fun _ => .ok [] }
      sampleStorage sampleContainer rfl rfl (by decide)).2 rfl (by decide)⟩

/-- C5: TearDownTarget on a target whose mountdir is not mounted
succeeds with no observable effect, for all repeated calls; when the
mountdir is mounted and the unmount fails, that failure is returned
to the caller, not swallowed. -/
theorem tearDownTarget_idempotent (inj : Inject) (a : AtomfsStorage)
    (name : String) (s : FsState)
    (hchk : inj.checkMountFail = false) :
    (isMounted s (targetMountdir a name) = false →
      tearDownTarget inj a name s = (none, s) ∧
      ∀ n : Nat, (fun st => (tearDownTarget inj a name st).2)^[n] s = s) ∧
    (isMounted s (targetMountdir a name) = true → inj.umountFail = true →
      (tearDownTarget inj a name s).1 =
        some (.wrapped "atomfs umount failed" .umountErr)) := by
  constructor
  · intro hnm
    have h1 : tearDownTarget inj a name s = (none, s) := by
      simp [tearDownTarget, hchk, hnm]
    exact ⟨h1, fun n => Function.iterate_fixed (by simp [h1]) n⟩
  · intro hm hu
    simp [tearDownTarget, hchk, hm, hu]

/-- Witness for C5: an unmounted target torn down is a no-op, five
repeated calls included; a mounted target whose unmount fails reports
the failure. -/
theorem tearDownTarget_idempotent_witness :
    (tearDownTarget injNone sampleStorage "svc1" sampleFs = (none, sampleFs)) ∧
    ((fun st => (tearDownTarget injNone sampleStorage "svc1" st).2)^[5] sampleFs
      = sampleFs) ∧
    ((tearDownTarget injUmount sampleStorage "svc1"
        { dirs := [], mounts := [⟨"/scratch/roots/svc1", .atomfs⟩] }).1 =
      some (.wrapped "atomfs umount failed" .umountErr)) :=
  ⟨((tearDownTarget_idempotent injNone sampleStorage "svc1" sampleFs rfl).1
      (by decide)).1,
   ((tearDownTarget_idempotent injNone sampleStorage "svc1" sampleFs rfl).1
      (by decide)).2 5,
   (tearDownTarget_idempotent injUmount sampleStorage "svc1"
      { dirs := [], mounts := [⟨"/scratch/roots/svc1", .atomfs⟩] } rfl).2
      (by decide) rfl⟩

/-! Success and rollback shape lemmas for the writable mount. -/

theorem mountA_success (inj : Inject) (a : AtomfsStorage) (t : Target)
    (mountpoint : String) (s : FsState)
    (hsucc : (mountA inj a t mountpoint s).1.2 = none) :
    mountA inj a t mountpoint s =
      (([CleanupAct.umountAtomfs mountpoint], none),
        pushMount (addDir s mountpoint) mountpoint .atomfs) := by
  cases h2 : inj.ensureFail with
  | true => simp [mountA, h2] at hsucc
  | false =>
    cases h3 : inj.buildFail with
    | true => simp [mountA, h2, h3] at hsucc
    | false =>
      cases h4 : inj.molMountFail with
      | true => simp [mountA, h2, h3, h4] at hsucc
      | false => simp [mountA, h2, h3, h4]

theorem mountWriteable_success (inj : Inject) (ro work upper : String)
    (a : AtomfsStorage) (t : Target) (mountpoint : String) (s : FsState)
    (hsucc : (mountWriteable inj ro work upper a t mountpoint s).1.2 = none) :
    mountWriteable inj ro work upper a t mountpoint s =
      ((some [CleanupAct.unmountOverlay mountpoint, CleanupAct.umountAtomfs ro,
              CleanupAct.removeAll work, CleanupAct.removeAll upper,
              CleanupAct.remove ro], none),
        { dirs := upper :: work :: ro :: s.dirs,
          mounts := ⟨mountpoint, .overlay⟩ :: ⟨ro, .atomfs⟩ :: s.mounts }) := by
  cases h1 : inj.mkRoFail with
  | true => simp [mountWriteable, h1] at hsucc
  | false =>
    cases h2 : inj.ensureFail with
    | true => simp [mountWriteable, mountA, h1, h2] at hsucc
    | false =>
      cases h3 : inj.buildFail with
      | true => simp [mountWriteable, mountA, h1, h2, h3] at hsucc
      | false =>
        cases h4 : inj.molMountFail with
        | true => simp [mountWriteable, mountA, h1, h2, h3, h4] at hsucc
        | false =>
          cases h5 : inj.mkWorkFail with
          | true => simp [mountWriteable, mountA, h1, h2, h3, h4, h5] at hsucc
          | false =>
            cases h6 : inj.mkUpperFail with
            | true => simp [mountWriteable, mountA, h1, h2, h3, h4, h5, h6] at hsucc
            | false =>
              cases h7 : inj.overlayFail with
              | true =>
                simp [mountWriteable, mountA, h1, h2, h3, h4, h5, h6, h7] at hsucc
              | false =>
                simp [mountWriteable, mountA, h1, h2, h3, h4, h5, h6, h7,
                      mkdirTemp, addDir, pushMount, List.mem_cons]

/-- C1: whenever MountWriteable fails at any of its steps (readonly
dir creation, read-only mount, workdir creation, upperdir creation,
overlay mount), every scratch directory created and every mount
established by the earlier steps is removed or unmounted before the
error is returned: the state is restored to its pre-call value.  The
distinctness hypotheses are the uniqueness MkdirTemp guarantees for
the three fresh scratch names. -/
theorem mountWriteable_rollback (inj : Inject) (ro work upper : String)
    (a : AtomfsStorage) (t : Target) (mountpoint : String) (s : FsState)
    (hrw : ro ≠ work) (hru : ro ≠ upper) (hwu : work ≠ upper)
    (e : GoError)
    (herr : (mountWriteable inj ro work upper a t mountpoint s).1.2 = some e) :
    (mountWriteable inj ro work upper a t mountpoint s).2 = s := by
  cases h1 : inj.mkRoFail with
  | true => simp [mountWriteable, h1]
  | false =>
    cases h2 : inj.ensureFail with
    | true =>
      simp [mountWriteable, mountA, h1, h2, mkdirTemp, removeDir,
            List.erase_cons_head]
    | false =>
      cases h3 : inj.buildFail with
      | true =>
        simp [mountWriteable, mountA, h1, h2, h3, mkdirTemp, addDir, removeDir,
              List.mem_cons, List.erase_cons_head]
      | false =>
        cases h4 : inj.molMountFail with
        | true =>
          simp [mountWriteable, mountA, h1, h2, h3, h4, mkdirTemp, addDir,
                removeDir, List.mem_cons, List.erase_cons_head]
        | false =>
          cases h5 : inj.mkWorkFail with
          | true =>
            simp [mountWriteable, mountA, h1, h2, h3, h4, h5, mkdirTemp, addDir,
                  removeDir, pushMount, runCleanup, runAct, popMount, popAt,
                  List.mem_cons, List.erase_cons_head]
          | false =>
            cases h6 : inj.mkUpperFail with
            | true =>
              simp [mountWriteable, mountA, h1, h2, h3, h4, h5, h6, mkdirTemp,
                    addDir, removeDir, pushMount, runCleanup, runAct, popMount,
                    popAt, List.mem_cons, List.erase_cons, Ne.symm hrw]
            | false =>
              cases h7 : inj.overlayFail with
              | true =>
                simp [mountWriteable, mountA, h1, h2, h3, h4, h5, h6, h7,
                      mkdirTemp, addDir, removeDir, pushMount, runCleanup,
                      runAct, popMount, popAt, List.mem_cons, List.erase_cons,
                      Ne.symm hrw, Ne.symm hru, Ne.symm hwu]
              | false =>
                simp [mountWriteable, mountA, h1, h2, h3, h4, h5, h6, h7] at herr

/-- Witness for C1: failure injected at the overlay-mount step; the
pre-call state is restored. -/
theorem mountWriteable_rollback_witness :
    (mountWriteable injOverlay "/scratch/ro" "/scratch/wk" "/scratch/up"
      sampleStorage sampleContainer "/mnt" sampleFs).2 = sampleFs :=
  mountWriteable_rollback injOverlay "/scratch/ro" "/scratch/wk" "/scratch/up"
    sampleStorage sampleContainer "/mnt" sampleFs
    (by decide) (by decide) (by decide) GoError.overlayMountErr (by decide)

/-- C2: when the final overlay mount syscall fails, MountWriteable
returns early with the raw syscall error and a nil cleanup function:
the returned pair is never the no-op function with the descriptive
wrapped error that the following unreachable return statement would
produce. -/
theorem mountWriteable_overlay_raw (inj : Inject) (ro work upper : String)
    (a : AtomfsStorage) (t : Target) (mountpoint : String) (s : FsState)
    (h1 : inj.mkRoFail = false) (h2 : inj.ensureFail = false)
    (h3 : inj.buildFail = false) (h4 : inj.molMountFail = false)
    (h5 : inj.mkWorkFail = false) (h6 : inj.mkUpperFail = false)
    (h7 : inj.overlayFail = true) :
    (mountWriteable inj ro work upper a t mountpoint s).1 =
      (none, some GoError.overlayMountErr) ∧
    (∀ c : Cleanup,
      (mountWriteable inj ro work upper a t mountpoint s).1.1 ≠ some c) ∧
    (∀ msg e,
      (mountWriteable inj ro work upper a t mountpoint s).1.2 ≠
        some (GoError.wrapped msg e)) := by
  have hres : (mountWriteable inj ro work upper a t mountpoint s).1 =
      (none, some GoError.overlayMountErr) := by
    simp [mountWriteable, mountA, h1, h2, h3, h4, h5, h6, h7]
  refine ⟨hres, ?_, ?_⟩
  · intro c
    rw [hres]
    simp
  · intro msg e
    rw [hres]
    simp

/-- Witness for C2: raw overlay error, nil (not no-op) cleanup, and in
particular not the wrapped error of the dead statement. -/
theorem mountWriteable_overlay_raw_witness :
    (mountWriteable injOverlay "/scratch/ro" "/scratch/wk" "/scratch/up"
      sampleStorage sampleContainer "/mnt" sampleFs).1 =
      (none, some GoError.overlayMountErr) ∧
    (mountWriteable injOverlay "/scratch/ro" "/scratch/wk" "/scratch/up"
      sampleStorage sampleContainer "/mnt" sampleFs).1.1 ≠ some ([] : Cleanup) ∧
    (mountWriteable injOverlay "/scratch/ro" "/scratch/wk" "/scratch/up"
      sampleStorage sampleContainer "/mnt" sampleFs).1.2 ≠
      some (GoError.wrapped "Failed mounting writeable overlay"
        GoError.overlayMountErr) := by
  have h := mountWriteable_overlay_raw injOverlay "/scratch/ro" "/scratch/wk"
    "/scratch/up" sampleStorage sampleContainer "/mnt" sampleFs
    rfl rfl rfl rfl rfl rfl rfl
  exact ⟨h.1, h.2.1 [], h.2.2 "Failed mounting writeable overlay"
    GoError.overlayMountErr⟩

/-- A path with no mount in the list stays untouched by popAt. -/
theorem popAt_of_not_mem (p : String) (l : List MountRec)
    (h : ∀ m ∈ l, m.path ≠ p) : popAt p l = l := by
  induction l with
  | nil => rfl
  | cons m rest ih =>
    have hm : m.path ≠ p := h m (List.mem_cons_self m rest)
    simp only [popAt, if_neg hm]
    rw [ih (fun x hx => h x (List.mem_cons_of_mem m hx))]

/-- C3: the cleanup action a successful MountWriteable returns
reverses all four steps in reverse order — unmount the overlay at the
mountpoint, unmount the readonly base, then remove the workdir, the
upperdir and the readonly directory — restoring the pre-call state;
and running the same action from the state in which the overlay mount
never succeeded also restores the pre-call state, so it is safe to
invoke without the overlay mount. -/
theorem mountWriteable_cleanup_action (inj : Inject) (ro work upper : String)
    (a : AtomfsStorage) (t : Target) (mountpoint : String) (s : FsState)
    (hwu : work ≠ upper) (hrm : ro ≠ mountpoint)
    (hmp : ∀ m ∈ s.mounts, m.path ≠ mountpoint)
    (hsucc : (mountWriteable inj ro work upper a t mountpoint s).1.2 = none) :
    (mountWriteable inj ro work upper a t mountpoint s).1.1 =
      some [CleanupAct.unmountOverlay mountpoint, CleanupAct.umountAtomfs ro,
            CleanupAct.removeAll work, CleanupAct.removeAll upper,
            CleanupAct.remove ro] ∧
    runCleanup [CleanupAct.unmountOverlay mountpoint, CleanupAct.umountAtomfs ro,
                CleanupAct.removeAll work, CleanupAct.removeAll upper,
                CleanupAct.remove ro]
      ((mountWriteable inj ro work upper a t mountpoint s).2) = s ∧
    runCleanup [CleanupAct.unmountOverlay mountpoint, CleanupAct.umountAtomfs ro,
                CleanupAct.removeAll work, CleanupAct.removeAll upper,
                CleanupAct.remove ro]
      (popMount ((mountWriteable inj ro work upper a t mountpoint s).2)
        mountpoint) = s := by
  have hfull := mountWriteable_success inj ro work upper a t mountpoint s hsucc
  rw [hfull]
  refine ⟨rfl, ?_, ?_⟩
  · simp [runCleanup, runAct, popMount, popAt, removeDir, List.erase_cons,
          Ne.symm hwu]
  · simp [runCleanup, runAct, popMount, popAt, removeDir, List.erase_cons,
          Ne.symm hwu, hrm, popAt_of_not_mem mountpoint s.mounts hmp]

/-- Witness for C3: a successful writable mount over the sample state;
the returned cleanup restores the pre-call state, with and without the
overlay mount present. -/
theorem mountWriteable_cleanup_action_witness :
    (mountWriteable injNone "/scratch/ro" "/scratch/wk" "/scratch/up"
      sampleStorage sampleContainer "/mnt" sampleFs).1.1 =
      some [CleanupAct.unmountOverlay "/mnt", CleanupAct.umountAtomfs "/scratch/ro",
            CleanupAct.removeAll "/scratch/wk", CleanupAct.removeAll "/scratch/up",
            CleanupAct.remove "/scratch/ro"] ∧
    runCleanup [CleanupAct.unmountOverlay "/mnt", CleanupAct.umountAtomfs "/scratch/ro",
                CleanupAct.removeAll "/scratch/wk", CleanupAct.removeAll "/scratch/up",
                CleanupAct.remove "/scratch/ro"]
      ((mountWriteable injNone "/scratch/ro" "/scratch/wk" "/scratch/up"
        sampleStorage sampleContainer "/mnt" sampleFs).2) = sampleFs ∧
    runCleanup [CleanupAct.unmountOverlay "/mnt", CleanupAct.umountAtomfs "/scratch/ro",
                CleanupAct.removeAll "/scratch/wk", CleanupAct.removeAll "/scratch/up",
                CleanupAct.remove "/scratch/ro"]
      (popMount ((mountWriteable injNone "/scratch/ro" "/scratch/wk" "/scratch/up"
        sampleStorage sampleContainer "/mnt" sampleFs).2) "/mnt") = sampleFs :=
  mountWriteable_cleanup_action injNone "/scratch/ro" "/scratch/wk" "/scratch/up"
    sampleStorage sampleContainer "/mnt" sampleFs
    (by decide) (by decide) (by decide) (by decide)

/-! Mount-count lemmas for the setup/teardown claims. -/

theorem length_filter_popAt (p : String) (l : List MountRec) :
    ((popAt p l).filter (fun m => m.path = p)).length
      = (l.filter (fun m => m.path = p)).length - 1 := by
  induction l with
  | nil => rfl
  | cons m rest ih =>
    by_cases h : m.path = p
    · simp [popAt, List.filter_cons, h]
    · simp [popAt, List.filter_cons, h, ih]

theorem mountCount_popMount (s : FsState) (p : String) :
    mountCount (popMount s p) p = mountCount s p - 1 :=
  length_filter_popAt p s.mounts

theorem count_zero_iff_not_any (p : String) (l : List MountRec) :
    (l.filter (fun m => m.path = p)).length = 0 ↔
      l.any (fun m => m.path = p) = false := by
  induction l with
  | nil => simp
  | cons m rest ih =>
    by_cases h : m.path = p
    · simp [List.filter_cons, List.any_cons, h]
    · simp [List.filter_cons, List.any_cons, h, ih]

theorem mountCount_zero_iff (s : FsState) (p : String) :
    mountCount s p = 0 ↔ isMounted s p = false :=
  count_zero_iff_not_any p s.mounts

theorem setupTargetMountPhase_count (inj : Inject) (ro work upper : String)
    (a : AtomfsStorage) (t : Target) (mp : String) (sIn s' : FsState)
    (hro : ro ≠ mp)
    (hzero : mountCount sIn mp = 0)
    (h : setupTargetMountPhase inj ro work upper a t mp sIn = (none, s')) :
    mountCount s' mp = 1 := by
  simp only [mountCount] at hzero
  by_cases hE : inj.ensureFail = true
  · simp [setupTargetMountPhase, hE] at h
  · by_cases hT : t.ServiceType = "container"
    · rcases hmw : mountWriteable inj ro work upper a t mp (addDir sIn mp)
        with ⟨⟨cl, err⟩, st⟩
      simp only [setupTargetMountPhase, if_neg hE, if_pos hT, hmw] at h
      cases err with
      | some e => simp at h
      | none =>
        simp only [Prod.mk.injEq, true_and] at h
        have hfull := mountWriteable_success inj ro work upper a t mp
          (addDir sIn mp) (by rw [hmw])
        rw [hmw] at hfull
        have hst : st =
            { dirs := upper :: work :: ro :: (addDir sIn mp).dirs,
              mounts := ⟨mp, .overlay⟩ :: ⟨ro, .atomfs⟩ :: (addDir sIn mp).mounts } :=
          congrArg Prod.snd hfull
        rw [← h, hst]
        simp [mountCount, List.filter_cons, hro, addDir, hzero]
    · rcases hma : mountA inj a t mp (addDir sIn mp) with ⟨⟨cl, err⟩, st⟩
      simp only [setupTargetMountPhase, if_neg hE, if_neg hT, hma] at h
      cases err with
      | some e => simp at h
      | none =>
        simp only [Prod.mk.injEq, true_and] at h
        have hfull := mountA_success inj a t mp (addDir sIn mp) (by rw [hma])
        rw [hma] at hfull
        have hst : st = pushMount (addDir (addDir sIn mp) mp) mp .atomfs :=
          congrArg Prod.snd hfull
        rw [← h, hst]
        simp [mountCount, pushMount, addDir, List.filter_cons, hzero]

theorem setupTarget_count (inj : Inject) (ro work upper : String)
    (a : AtomfsStorage) (t : Target) (s s' : FsState)
    (hro : ro ≠ targetMountdir a t.Name)
    (hcount : mountCount s (targetMountdir a t.Name) ≤ 1)
    (h : setupTarget inj ro work upper a t s = (none, s')) :
    mountCount s' (targetMountdir a t.Name) = 1 := by
  by_cases hC : inj.checkMountFail = true
  · simp [setupTarget, hC] at h
  · by_cases hM : isMounted s (targetMountdir a t.Name) = true
    · by_cases hU : inj.umountFail = true
      · simp [setupTarget, hC, hM, hU] at h
      · simp only [setupTarget, if_neg hC, hM, if_true, if_neg hU] at h
        refine setupTargetMountPhase_count inj ro work upper a t
          (targetMountdir a t.Name) (popMount s (targetMountdir a t.Name)) s'
          hro ?_ h
        rw [mountCount_popMount]
        exact Nat.sub_eq_zero_of_le hcount
    · have hM' : isMounted s (targetMountdir a t.Name) = false :=
        Bool.eq_false_iff.mpr hM
      simp only [setupTarget, if_neg hC, hM', Bool.false_eq_true, if_false] at h
      exact setupTargetMountPhase_count inj ro work upper a t
        (targetMountdir a t.Name) s s' hro
        ((mountCount_zero_iff s (targetMountdir a t.Name)).mpr hM') h

/-- C4: SetupTarget unmounts an existing mount at the target's
mountdir before mounting afresh, so two successive successful
SetupTarget calls for the same target leave exactly one active mount
at the mountdir (the first call already does), never two stacked
mounts.  The hypotheses say the pre-call state has no stacked mounts
at the mountdir and the fresh readonly scratch names differ from the
mountdir, as MkdirTemp guarantees. -/
theorem setupTarget_twice_one_mount (inj₁ inj₂ : Inject)
    (ro₁ work₁ upper₁ ro₂ work₂ upper₂ : String)
    (a : AtomfsStorage) (t : Target) (s s₁ s₂ : FsState)
    (hro₁ : ro₁ ≠ targetMountdir a t.Name)
    (hro₂ : ro₂ ≠ targetMountdir a t.Name)
    (hcount : mountCount s (targetMountdir a t.Name) ≤ 1)
    (h1 : setupTarget inj₁ ro₁ work₁ upper₁ a t s = (none, s₁))
    (h2 : setupTarget inj₂ ro₂ work₂ upper₂ a t s₁ = (none, s₂)) :
    mountCount s₁ (targetMountdir a t.Name) = 1 ∧
    mountCount s₂ (targetMountdir a t.Name) = 1 := by
  have e1 := setupTarget_count inj₁ ro₁ work₁ upper₁ a t s s₁ hro₁ hcount h1
  exact ⟨e1, setupTarget_count inj₂ ro₂ work₂ upper₂ a t s₁ s₂ hro₂ e1.le h2⟩

/-- Witness for C4: two successful container setups in a row from the
sample state leave exactly one mount at the mountdir after each. -/
theorem setupTarget_twice_one_mount_witness :
    mountCount (setupTarget injNone "/scratch/ro1" "/scratch/wk1" "/scratch/up1"
        sampleStorage sampleContainer sampleFs).2
      (targetMountdir sampleStorage "svc1") = 1 ∧
    mountCount (setupTarget injNone "/scratch/ro2" "/scratch/wk2" "/scratch/up2"
        sampleStorage sampleContainer
        (setupTarget injNone "/scratch/ro1" "/scratch/wk1" "/scratch/up1"
          sampleStorage sampleContainer sampleFs).2).2
      (targetMountdir sampleStorage "svc1") = 1 :=
  setupTarget_twice_one_mount injNone injNone
    "/scratch/ro1" "/scratch/wk1" "/scratch/up1"
    "/scratch/ro2" "/scratch/wk2" "/scratch/up2"
    sampleStorage sampleContainer sampleFs
    (setupTarget injNone "/scratch/ro1" "/scratch/wk1" "/scratch/up1"
      sampleStorage sampleContainer sampleFs).2
    (setupTarget injNone "/scratch/ro2" "/scratch/wk2" "/scratch/up2"
      sampleStorage sampleContainer
      (setupTarget injNone "/scratch/ro1" "/scratch/wk1" "/scratch/up1"
        sampleStorage sampleContainer sampleFs).2).2
    (by decide) (by decide) (by decide) (by decide) (by decide)
